import Mathlib

/-!
Verification development for the fission-workflows core sources:
  * the scheduler protobuf schema (Schedule and its action messages),
  * the fes event-store types (EventStoreErr and its combinators,
    Notification construction),
  * the bundle wiring (event-store backend selection, tracer
    configuration, cache subscriptions).

Go values are embedded shallowly: structs become structures, pointers
that may be nil become `Option`, interface `error` values become an
inductive, and methods become pure functions on the receiver value.
-/

namespace FissionWorkflows

/-- google.protobuf.Timestamp: seconds and nanoseconds. -/
structure Timestamp where
  seconds : Int
  nanos : Int
  deriving DecidableEq, Repr

/-- Aggregate identity of an event stream: a type and an id
(src/pkg/fes, spec data model). -/
structure Aggregate where
  aggType : String
  id : String
  deriving DecidableEq, Repr

/-- Modelled from the spec: the fes Event record (its Go definition is
generated protobuf code that is not under src/). Fields per the spec's
data model: aggregate, optional parent aggregate, type, payload bytes,
metadata string map, createdAt, monotonic sequence, plus any
caller-defined labels carried in the event. The aggregate is a pointer
in Go (`event.Aggregate`), so it is an `Option` here. -/
structure Event where
  aggregate : Option Aggregate
  parent : Option Aggregate
  type : String
  payload : String
  metadata : Option (List (String × String))
  createdAt : Option Timestamp
  sequence : Nat
  callerLabels : List (String × String)
  deriving DecidableEq, Repr

/-- Modelled from the spec: `Event.Labels()` (not under src/) — the
labels of an event include `aggregate.type`, `aggregate.id`, an optional
`parent.type`, and any caller-defined labels carried in the event. -/
def Event.labels (e : Event) : List (String × String) :=
  (match e.aggregate with
   | some a => [("aggregate.type", a.aggType), ("aggregate.id", a.id)]
   | none => [])
  ++ (match e.parent with
      | some p => [("parent.type", p.aggType)]
      | none => [])
  ++ e.callerLabels

/-! ## EventStoreErr (src/pkg/fes/types.go) -/

/-- EventStoreErr from src/pkg/fes/types.go: description `S` (required),
optional related aggregate `K`, optional related event `E`, optional
underlying cause `C` (an arbitrary Go error, modelled by its message). -/
structure EventStoreErr where
  S : String
  K : Option Aggregate := none
  E : Option Event := none
  C : Option String := none
  deriving DecidableEq, Repr

/-- A Go `error` interface value as seen by `EventStoreErr.Is`: the nil
interface, an event-store error, or an error of any other type. -/
inductive GoError where
  | nil
  | es (e : EventStoreErr)
  | foreign (msg : String)
  deriving DecidableEq, Repr

/-- `WithAggregate` from src/pkg/fes/types.go: set the related
aggregate. The Go parameter is a `*Aggregate`, hence `Option`. -/
def EventStoreErr.withAggregate (err : EventStoreErr) (aggregate : Option Aggregate) :
    EventStoreErr :=
  { err with K := aggregate }

/-- `WithEvent` from src/pkg/fes/types.go: set the related event; when
no aggregate is attached yet, also take the event's aggregate. -/
def EventStoreErr.withEvent (err : EventStoreErr) (event : Event) : EventStoreErr :=
  let err' : EventStoreErr := { err with E := some event }
  match err'.K with
  | none => err'.withAggregate event.aggregate
  | some _ => err'

/-- `WithError` from src/pkg/fes/types.go: set the underlying cause. -/
def EventStoreErr.withError (err : EventStoreErr) (cause : String) : EventStoreErr :=
  { err with C := some cause }

/-- `Is` from src/pkg/fes/types.go: a nil error never matches; an error
that is not an `*EventStoreErr` never matches; an event-store error
matches exactly when the description strings are equal. -/
def EventStoreErr.Is (err : EventStoreErr) (other : GoError) : Bool :=
  match other with
  | .nil => false
  | .foreign _ => false
  | .es esErr => esErr.S == err.S

/-- Sentinel `ErrInvalidAggregate` (src/pkg/fes/types.go). -/
def ErrInvalidAggregate : EventStoreErr := { S := "invalid aggregate" }

/-- Sentinel `ErrInvalidEvent` (src/pkg/fes/types.go). -/
def ErrInvalidEvent : EventStoreErr := { S := "invalid event" }

/-- Sentinel `ErrInvalidEntity` (src/pkg/fes/types.go). -/
def ErrInvalidEntity : EventStoreErr := { S := "invalid entity" }

/-- Sentinel `ErrEventStoreOverflow` (src/pkg/fes/types.go). -/
def ErrEventStoreOverflow : EventStoreErr := { S := "event store out of space" }

/-- Sentinel `ErrUnsupportedEntityEvent` (src/pkg/fes/types.go). -/
def ErrUnsupportedEntityEvent : EventStoreErr := { S := "event not supported" }

/-- Sentinel `ErrCorruptedEventPayload` (src/pkg/fes/types.go). -/
def ErrCorruptedEventPayload : EventStoreErr := { S := "failed to parse event payload" }

/-- Sentinel `ErrEntityNotFound` (src/pkg/fes/types.go). -/
def ErrEntityNotFound : EventStoreErr := { S := "entity not found" }

/-- The seven sentinel event-store errors, in source order. -/
def eventStoreSentinels : List EventStoreErr :=
  [ErrInvalidAggregate, ErrInvalidEvent, ErrInvalidEntity, ErrEventStoreOverflow,
   ErrUnsupportedEntityEvent, ErrCorruptedEventPayload, ErrEntityNotFound]

/-! ## Notification (src/pkg/fes/types.go) -/

/-- An opentracing span context, as opaque carrier data returned by a
tracer's Extract. -/
structure SpanContext where
  carrier : List (String × String)
  deriving DecidableEq, Repr

/-- Entities are Go interface values: a pointer to mutable state.
`ptr` models the reference identity of the wrapped object, so that a
copy (`CopyEntity`: same state, fresh pointer) is distinguishable from
the live reference. -/
structure Entity where
  ptr : Nat
  state : String
  deriving DecidableEq, Repr

/-- `CopyEntity`: copy the wrapped object — a snapshot with the same
state under a fresh pointer. -/
def Entity.copyEntity (e : Entity) (freshPtr : Nat) : Entity :=
  { ptr := freshPtr, state := e.state }

/-- Modelled from the spec: `pubsub.NewEmptyMsg` (not under src/) — the
message envelope of a notification, carrying the event's labels and
creation time. -/
structure EmptyMsg where
  labels : List (String × String)
  createdAt : Option Timestamp
  deriving DecidableEq, Repr

/-- `Notification` from src/pkg/fes/types.go: embedded envelope,
payload entity, triggering event type, extracted span context (nil when
absent or when extraction fails). -/
structure Notification where
  emptyMsg : EmptyMsg
  payload : Entity
  eventType : String
  spanCtx : Option SpanContext
  deriving DecidableEq, Repr

/-- `newNotification` from src/pkg/fes/types.go. The ambient
`opentracing.GlobalTracer().Extract` call is passed explicitly as
`extract`; the Go code assigns the extracted context unconditionally
(a failed extraction leaves it nil, here `none`), and skips extraction
entirely when the event has no metadata. The payload is the `entity`
argument itself. -/
def newNotification (extract : List (String × String) → Option SpanContext)
    (entity : Entity) (event : Event) : Notification :=
  let spanCtx : Option SpanContext :=
    match event.metadata with
    | none => none
    | some md => extract md
  { emptyMsg := { labels := event.labels, createdAt := event.createdAt }
    payload := entity
    eventType := event.type
    spanCtx := spanCtx }

/-! ## Scheduler schema (src/unnamed/part_001, scheduler.proto) -/

/-- `AbortAction` message: a reason string. -/
structure AbortAction where
  reason : String
  deriving DecidableEq, Repr

/-- `RunTaskAction` message: only the id of the task in the workflow. -/
structure RunTaskAction where
  taskID : String
  deriving DecidableEq, Repr

/-- `PrepareTaskAction` message: a task id and an expected start time. -/
structure PrepareTaskAction where
  taskID : String
  expectedAt : Option Timestamp
  deriving DecidableEq, Repr

/-- `Schedule` message from scheduler.proto: invocationId, createdAt,
optional abort action, repeated runTasks, repeated prepareTasks.
Message-typed proto3 fields track presence, hence `Option`. -/
structure Schedule where
  invocationId : String
  createdAt : Option Timestamp
  abort : Option AbortAction
  runTasks : List RunTaskAction
  prepareTasks : List PrepareTaskAction
  deriving DecidableEq, Repr

/-- The Schedule record exactly as the spec's data-model sentence words
it: an invocation id, a createdAt timestamp, an optional abort reason, a
list of runTask actions (each a task id), and a list of prepareTask
actions (each a task id plus an expected start time). -/
structure SpecSchedule where
  invocationId : String
  createdAt : Option Timestamp
  abortReason : Option String
  runTaskIds : List String
  prepareTaskActions : List (String × Option Timestamp)
  deriving DecidableEq, Repr

/-- Read a proto Schedule as the spec's record. -/
def scheduleToSpec (s : Schedule) : SpecSchedule :=
  { invocationId := s.invocationId
    createdAt := s.createdAt
    abortReason := s.abort.map AbortAction.reason
    runTaskIds := s.runTasks.map RunTaskAction.taskID
    prepareTaskActions := s.prepareTasks.map fun p => (p.taskID, p.expectedAt) }

/-- Rebuild a proto Schedule from the spec's record. -/
def scheduleOfSpec (r : SpecSchedule) : Schedule :=
  { invocationId := r.invocationId
    createdAt := r.createdAt
    abort := r.abortReason.map AbortAction.mk
    runTasks := r.runTaskIds.map RunTaskAction.mk
    prepareTasks := r.prepareTaskActions.map fun p => ⟨p.1, p.2⟩ }

/-! ## Scheduler evaluate (modelled from the spec, section 4.E)

The Go implementation of the scheduler is not under src/; only the proto
service declaration is (`rpc evaluate (WorkflowInvocation) returns
(Schedule)`, where the WorkflowInvocation message — defined in
types.proto, also absent — wraps the projected invocation state and its
workflow definition). The decision policy below is modelled from the
spec's words. -/

/-- Modelled from the spec: a task's status as projected into the
invocation state. -/
inductive TaskRunStatus where
  | pending
  | inProgress
  | succeeded
  | failed
  deriving DecidableEq, Repr

/-- Modelled from the spec: the invocation's overall status. -/
inductive InvocationStatus where
  | scheduled
  | inProgress
  | succeeded
  | failed
  | aborted
  deriving DecidableEq, Repr

/-- Terminal invocation statuses: succeeded, failed, aborted. -/
def InvocationStatus.isTerminal : InvocationStatus → Bool
  | .succeeded => true
  | .failed => true
  | .aborted => true
  | _ => false

/-- Modelled from the spec: one task of a workflow definition — its id,
its dependency task ids, and whether its runtime supports pre-warming. -/
structure WorkflowTask where
  id : String
  deps : List String
  prewarmable : Bool
  deriving DecidableEq, Repr

/-- Modelled from the spec: a workflow definition, as the scheduler
reads it — the task graph. -/
structure Workflow where
  tasks : List WorkflowTask
  deriving DecidableEq, Repr

/-- Modelled from the spec: the currently projected invocation state the
scheduler reads — id, overall status, per-task status map, the set of
task ids whose outputs are available, per-task expected-finish estimates
(dependency progress), and whether the invocation's deadline has been
exceeded. -/
structure WorkflowInvocation where
  id : String
  status : InvocationStatus
  taskStatuses : List (String × TaskRunStatus)
  availableOutputs : List String
  expectedFinish : List (String × Timestamp)
  deadlineExceeded : Bool
  deriving DecidableEq, Repr

/-- The projected status of a task; a task with no recorded status is
pending. -/
def WorkflowInvocation.taskStatus (inv : WorkflowInvocation) (taskId : String) :
    TaskRunStatus :=
  (inv.taskStatuses.lookup taskId).getD .pending

/-- Modelled from the spec: a task is eligible when it is pending, every
dependency has succeeded, and the required dependency outputs are
available. -/
def taskEligible (inv : WorkflowInvocation) (t : WorkflowTask) : Bool :=
  inv.taskStatus t.id == .pending
    && t.deps.all (fun d => inv.taskStatus d == .succeeded)
    && t.deps.all (fun d => inv.availableOutputs.contains d)

/-- Modelled from the spec: abort when the invocation exceeded its
deadline, or when some dependency of a still-pending task has failed. -/
def abortReasonFor (inv : WorkflowInvocation) (wf : Workflow) : Option String :=
  if inv.deadlineExceeded then some "deadline exceeded"
  else if wf.tasks.any (fun t =>
      inv.taskStatus t.id == .pending
        && t.deps.any (fun d => inv.taskStatus d == .failed)) then
    some "dependency failed"
  else none

/-- Lexicographic-by-seconds-then-nanos order used to take the latest
expected finish among a task's dependencies. -/
def timestampLe (a b : Timestamp) : Bool :=
  a.seconds < b.seconds || (a.seconds == b.seconds && a.nanos ≤ b.nanos)

/-- Modelled from the spec: the expected start of a not-yet-eligible
task, estimated from the dependencies' progress — the latest recorded
expected finish among its dependencies. -/
def estimateExpectedAt (inv : WorkflowInvocation) (t : WorkflowTask) :
    Option Timestamp :=
  t.deps.foldl
    (fun acc d =>
      match inv.expectedFinish.lookup d with
      | none => acc
      | some ts =>
        match acc with
        | none => some ts
        | some best => if timestampLe best ts then some ts else some best)
    none

/-- Modelled from the spec: a task is prepared when it is pending but
not yet eligible, all its dependencies are in progress, and its runtime
supports pre-warming. -/
def taskPreparable (inv : WorkflowInvocation) (t : WorkflowTask) : Bool :=
  inv.taskStatus t.id == .pending
    && !taskEligible inv t
    && t.deps.all (fun d => inv.taskStatus d == .inProgress)
    && t.prewarmable

/-- Lexicographic comparison of character lists by code point. -/
def charListLe : List Char → List Char → Bool
  | [], _ => true
  | _ :: _, [] => false
  | a :: as, b :: bs =>
    if a.val < b.val then true
    else if b.val < a.val then false
    else charListLe as bs

/-- Lexicographic string comparison by code point. -/
def strLe (a b : String) : Bool := charListLe a.data b.data

/-- Insert a string into a lexicographically sorted list. -/
def insertSorted (x : String) : List String → List String
  | [] => [x]
  | y :: ys => if strLe x y then x :: y :: ys else y :: insertSorted x ys

/-- Stable lexicographic sort, the spec's deterministic tie-break for
eligible tasks. -/
def sortTaskIds (l : List String) : List String :=
  l.foldr insertSorted []

/-- Modelled from the spec: the scheduler's decision policy.
`evaluate(invocation, workflow) → Schedule`; `now` is the clock value
used solely to stamp `createdAt`.
1. A terminal invocation gets an empty schedule.
2. A failed dependency of a pending task, or an exceeded deadline,
   yields an abort schedule.
3. Otherwise every eligible task yields a RunTaskAction, sorted by task
   id, and every preparable task yields a PrepareTaskAction with an
   expected start estimated from dependency progress. -/
def evaluate (inv : WorkflowInvocation) (wf : Workflow) (now : Timestamp) :
    Schedule :=
  if inv.status.isTerminal then
    { invocationId := inv.id, createdAt := some now, abort := none,
      runTasks := [], prepareTasks := [] }
  else
    match abortReasonFor inv wf with
    | some r =>
      { invocationId := inv.id, createdAt := some now, abort := some ⟨r⟩,
        runTasks := [], prepareTasks := [] }
    | none =>
      let eligible := (wf.tasks.filter (taskEligible inv)).map WorkflowTask.id
      let runTasks := (sortTaskIds eligible).map RunTaskAction.mk
      let prepareTasks :=
        (wf.tasks.filter (taskPreparable inv)).map fun t =>
          { taskID := t.id, expectedAt := estimateExpectedAt inv t :
            PrepareTaskAction }
      { invocationId := inv.id, createdAt := some now, abort := none,
        runTasks := runTasks, prepareTasks := prepareTasks }

/-- The scheduler call in state-passing form: the state is the pair of
inputs the procedure could reach; the call returns the schedule and the
post-call state of both inputs. -/
def evaluateSt (now : Timestamp) :
    StateM (WorkflowInvocation × Workflow) Schedule := do
  let s ← get
  pure (evaluate s.1 s.2 now)

/-- A schedule with its createdAt stamp removed, for comparing schedules
modulo the clock. -/
def stripCreatedAt (s : Schedule) : Schedule :=
  { s with createdAt := none }

/-! ## Bundle wiring (src/cmd/fission-workflows-bundle/bundle/bundle.go) -/

/-- `nats.Config`: the streaming-log connection parameters carried in
`Options.Nats` (url, cluster, client id). -/
structure NatsConfig where
  url : String
  cluster : String
  client : String
  deriving DecidableEq, Repr

/-- The event-store backend `Run` selects: the NATS streaming-log client
(with its connection parameters) or the in-memory development backend. -/
inductive EventStoreChoice where
  | natsEs (cfg : NatsConfig)
  | memEs
  deriving DecidableEq, Repr

/-- Whether a choice is the streaming-log (NATS) backend. -/
def EventStoreChoice.isNats : EventStoreChoice → Bool
  | .natsEs _ => true
  | .memEs => false

/-- `setupNatsEventStoreClient` from bundle.go: an empty client id is
replaced by a fresh UID (`util.UID()`, passed here as `uid`), then the
NATS event store is connected with the given cluster, url and client. -/
def setupNatsEventStoreClient (uid : String) (url cluster clientID : String) :
    EventStoreChoice :=
  let clientID := if clientID == "" then uid else clientID
  .natsEs { url := url, cluster := cluster, client := clientID }

/-- The event-store selection in `Run` (bundle.go lines 168-182): when
`opts.Nats` is non-nil the NATS event store serves as both the backend
`es` and the publisher `esPub`; otherwise the in-memory backend serves
as both. Returns the pair `(es, esPub)`. -/
def selectEventStore (uid : String) (natsOpt : Option NatsConfig) :
    EventStoreChoice × EventStoreChoice :=
  match natsOpt with
  | some cfg =>
    let natsEs := setupNatsEventStoreClient uid cfg.url cfg.cluster cfg.client
    (natsEs, natsEs)
  | none => (.memEs, .memEs)

/-- `jaegercfg.SamplerConfig`: sampler type and parameter. The Go
`Param` is a float64 set only to the literal 1 here, modelled as `Int`. -/
structure SamplerConfig where
  samplerType : String
  param : Int
  deriving DecidableEq, Repr

/-- `jaegercfg.ReporterConfig`, reduced to the one field `Run` sets. -/
structure ReporterConfig where
  logSpans : Bool
  deriving DecidableEq, Repr

/-- The Jaeger configuration read from the environment, reduced to the
fields `Run` touches. -/
structure JaegerConfig where
  sampler : SamplerConfig
  reporter : ReporterConfig
  deriving DecidableEq, Repr

/-- `jaeger.SamplerTypeConst`. -/
def SamplerTypeConst : String := "const"

/-- The tracer configuration step of `Run` (bundle.go lines 126-135):
in debug mode the sampler is replaced by a constant sampler with
parameter 1 (do not sample down) and the reporter logs spans; otherwise
the environment configuration is left as read. -/
def configureTracer (debug : Bool) (cfg : JaegerConfig) : JaegerConfig :=
  if debug then
    { cfg with
      sampler := { samplerType := SamplerTypeConst, param := 1 }
      reporter := { logSpans := true } }
  else cfg

/-! ## Cache subscriptions (bundle.go lines 424-446) -/

/-- Modelled from the spec: `labels.In` (pkg/util/labels is not under
src/) — a matcher accepting label sets whose value at `key` is `value`. -/
def labelsIn (key value : String) (ls : List (String × String)) : Bool :=
  ls.lookup key == some value

/-- Modelled from the spec: `labels.Or` — a matcher accepting what
either matcher accepts. -/
def labelsOr (m1 m2 : List (String × String) → Bool)
    (ls : List (String × String)) : Bool :=
  m1 ls || m2 ls

/-- `fes.PubSubLabelAggregateType` (modelled from the spec: the label
carrying the event's aggregate type). -/
def PubSubLabelAggregateType : String := "aggregate.type"

/-- Modelled from the spec: `aggregates.TypeWorkflowInvocation`, the
aggregate type string of invocations. -/
def TypeWorkflowInvocation : String := "invocation"

/-- Modelled from the spec: `aggregates.TypeWorkflow`, the aggregate
type string of workflow definitions. -/
def TypeWorkflow : String := "workflow"

/-- `pubsub.SubscriptionOptions`: buffer size and label matcher. -/
structure SubscriptionOptions where
  buffer : Nat
  labelMatcher : List (String × String) → Bool

/-- The subscription `setupWorkflowInvocationCache` opens (bundle.go
lines 425-430): buffer 50, matching aggregate.type = invocation OR
parent.type = invocation. -/
def invocationCacheSubscription : SubscriptionOptions :=
  { buffer := 50
    labelMatcher :=
      labelsOr (labelsIn PubSubLabelAggregateType TypeWorkflowInvocation)
        (labelsIn "parent.type" TypeWorkflowInvocation) }

/-- The subscription `setupWorkflowCache` opens (bundle.go lines
438-441): buffer 10, matching aggregate.type = workflow only. -/
def workflowCacheSubscription : SubscriptionOptions :=
  { buffer := 10
    labelMatcher := labelsIn PubSubLabelAggregateType TypeWorkflow }

/-! ## Concrete samples -/

/-- A concrete entity: the Go interface value at pointer 0. -/
def sampleEntity : Entity :=
  { ptr := 0, state := "invocation inv-1, task A in progress" }

/-- A concrete event on the invocation aggregate inv-1. -/
def sampleEvent : Event :=
  { aggregate := some { aggType := "invocation", id := "inv-1" }
    parent := none
    type := "TaskStarted"
    payload := ""
    metadata := some [("uber-trace-id", "4bf92f3577b34da6a3ce929d0e0e4736")]
    createdAt := some ⟨10, 0⟩
    sequence := 3
    callerLabels := [] }

/-- A concrete tracer Extract that succeeds on any carrier. -/
def sampleExtract : List (String × String) → Option SpanContext :=
  fun md => some ⟨md⟩

/-! ## Helper lemmas -/

lemma runTask_taskID_mk (l : List String) :
    l.map (RunTaskAction.taskID ∘ RunTaskAction.mk) = l := by
  induction l with
  | nil => rfl
  | cons x xs ih => simpa using ih

lemma runTask_mk_taskID (l : List RunTaskAction) :
    l.map (RunTaskAction.mk ∘ RunTaskAction.taskID) = l := by
  induction l with
  | nil => rfl
  | cons x xs ih => simpa using ih

lemma prepareTask_pair_mk (l : List (String × Option Timestamp)) :
    l.map ((fun p : PrepareTaskAction => (p.taskID, p.expectedAt)) ∘
      fun p : String × Option Timestamp => (⟨p.1, p.2⟩ : PrepareTaskAction)) = l := by
  induction l with
  | nil => rfl
  | cons x xs ih => simpa using ih

lemma prepareTask_mk_pair (l : List PrepareTaskAction) :
    l.map ((fun p : String × Option Timestamp => (⟨p.1, p.2⟩ : PrepareTaskAction)) ∘
      fun p : PrepareTaskAction => (p.taskID, p.expectedAt)) = l := by
  induction l with
  | nil => rfl
  | cons x xs ih => simpa using ih

lemma abortAction_mk_reason (o : Option AbortAction) :
    o.map (AbortAction.mk ∘ AbortAction.reason) = o := by
  cases o <;> rfl

lemma abortAction_reason_mk (o : Option String) :
    o.map (AbortAction.reason ∘ AbortAction.mk) = o := by
  cases o <;> rfl

/-! ## Claim theorems -/

/-- C1: the Schedule record produced by the scheduler has exactly the
attributes the spec lists — the proto Schedule message (invocation id,
createdAt, optional abort action carrying a reason, runTask actions each
carrying only a task id, prepareTask actions each carrying a task id and
an expected start time) is in bijection with the record built from the
spec's words, by structure-preserving maps that are mutually inverse. -/
theorem schedule_matches_spec_record :
    (∀ s : Schedule, scheduleOfSpec (scheduleToSpec s) = s)
      ∧ (∀ r : SpecSchedule, scheduleToSpec (scheduleOfSpec r) = r) := by
  constructor
  · intro s
    cases s with
    | mk invocationId createdAt abort runTasks prepareTasks =>
      simp [scheduleToSpec, scheduleOfSpec, abortAction_mk_reason,
        runTask_mk_taskID, prepareTask_mk_pair]
  · intro r
    cases r with
    | mk invocationId createdAt abortReason runTaskIds prepareTaskActions =>
      simp [scheduleToSpec, scheduleOfSpec, abortAction_reason_mk,
        runTask_taskID_mk, prepareTask_pair_mk]

/-- C2: the scheduler's evaluate is a function of the projected
invocation state and the workflow definition returning a Schedule, and
it mutates neither input: run in state-passing form over the pair of
inputs, the call returns exactly `evaluate inv wf now` and leaves both
inputs as they were. -/
theorem evaluate_pure_function_of_inputs :
    ∀ (inv : WorkflowInvocation) (wf : Workflow) (now : Timestamp),
      (evaluateSt now).run (inv, wf) = (evaluate inv wf now, (inv, wf)) := by
  intro inv wf now
  rfl

/-- C3: evaluating the scheduler twice on the same invocation and
workflow yields identical schedules apart from the createdAt stamp —
for any two clock readings the schedules agree once createdAt is
stripped. -/
theorem evaluate_deterministic_modulo_createdAt :
    ∀ (inv : WorkflowInvocation) (wf : Workflow) (t t' : Timestamp),
      stripCreatedAt (evaluate inv wf t) = stripCreatedAt (evaluate inv wf t') := by
  intro inv wf t t'
  unfold evaluate
  cases h : inv.status.isTerminal <;> simp [stripCreatedAt]
  cases h2 : abortReasonFor inv wf <;> simp

/-- C4: the seven sentinel event-store errors of the spec's error
taxonomy — ErrInvalidAggregate, ErrInvalidEvent, ErrInvalidEntity,
ErrEventStoreOverflow, ErrUnsupportedEntityEvent,
ErrCorruptedEventPayload, ErrEntityNotFound — carry pairwise distinct
description strings. -/
theorem sentinel_errors_distinct_descriptions :
    (eventStoreSentinels.map EventStoreErr.S).Nodup := by
  decide

/-- C5 counterexample: newNotification stores the live entity reference
as the payload, not a copy — at a concrete entity at pointer 0, the
constructed notification's payload is that very entity (same pointer),
and differs from the snapshot CopyEntity would produce at a fresh
pointer. -/
theorem newNotification_payload_is_live_reference :
    (newNotification sampleExtract sampleEntity sampleEvent).payload = sampleEntity
      ∧ (newNotification sampleExtract sampleEntity sampleEvent).payload ≠
          sampleEntity.copyEntity 1 := by
  exact ⟨rfl, by decide⟩

/-- C5 (amended): for every entity and event, the Notification carries
the entity exactly as passed (the live reference — any snapshot copy is
the caller's responsibility), the triggering event's type string, the
trace context extracted from the event's metadata (none when the
metadata is absent), and the event's labels and creation time as its
message envelope. -/
theorem newNotification_fields :
    ∀ (extract : List (String × String) → Option SpanContext)
      (entity : Entity) (event : Event),
      (newNotification extract entity event).payload = entity
        ∧ (newNotification extract entity event).eventType = event.type
        ∧ (newNotification extract entity event).spanCtx =
            (match event.metadata with
             | none => none
             | some md => extract md)
        ∧ (newNotification extract entity event).emptyMsg =
            { labels := event.labels, createdAt := event.createdAt } := by
  intro extract entity event
  exact ⟨rfl, rfl, rfl, rfl⟩

/-- C6: event-store backend selection is the two-valued choice of the
spec — the same backend serves as event store and as publisher; when
NATS connection parameters are provided both are the streaming-log
client built from them (with an empty client id replaced by a fresh
UID), and when they are absent both are the in-memory backend. -/
theorem selectEventStore_two_valued :
    (∀ uid o, (selectEventStore uid o).1 = (selectEventStore uid o).2)
      ∧ (∀ uid cfg,
          selectEventStore uid (some cfg) =
            (setupNatsEventStoreClient uid cfg.url cfg.cluster cfg.client,
             setupNatsEventStoreClient uid cfg.url cfg.cluster cfg.client)
            ∧ (selectEventStore uid (some cfg)).1.isNats = true)
      ∧ (∀ uid, selectEventStore uid none =
          (EventStoreChoice.memEs, EventStoreChoice.memEs)) := by
  refine ⟨fun uid o => ?_, fun uid cfg => ⟨rfl, rfl⟩, fun uid => rfl⟩
  cases o <;> rfl

/-- C7: with debug mode on, the tracer samples nothing down — the
sampler becomes a constant sampler with parameter 1 and the reporter
logs spans; with debug mode off the environment configuration is used
unchanged. -/
theorem configureTracer_debug_sampling :
    (∀ cfg, (configureTracer true cfg).sampler =
          { samplerType := SamplerTypeConst, param := 1 }
        ∧ (configureTracer true cfg).sampler.samplerType = "const"
        ∧ (configureTracer true cfg).reporter.logSpans = true)
      ∧ (∀ cfg, configureTracer false cfg = cfg) := by
  exact ⟨fun cfg => ⟨rfl, rfl, rfl⟩, fun cfg => rfl⟩

/-- C8: the invocation cache's subscription matches exactly the label
sets whose aggregate.type is the workflow-invocation type or whose
parent.type is the workflow-invocation type, while the workflow cache's
subscription matches exactly those whose aggregate.type is the workflow
type. -/
theorem cache_subscription_matchers :
    ∀ ls : List (String × String),
      (invocationCacheSubscription.labelMatcher ls = true ↔
          ls.lookup "aggregate.type" = some TypeWorkflowInvocation
            ∨ ls.lookup "parent.type" = some TypeWorkflowInvocation)
        ∧ (workflowCacheSubscription.labelMatcher ls = true ↔
            ls.lookup "aggregate.type" = some TypeWorkflow) := by
  intro ls
  constructor
  · simp [invocationCacheSubscription, labelsOr, labelsIn,
      PubSubLabelAggregateType, Bool.or_eq_true]
  · simp [workflowCacheSubscription, labelsIn, PubSubLabelAggregateType]

/-- C9: EventStoreErr.Is holds exactly when the other error is an
event-store error with the same description string — it is false
against nil and against foreign error types, and an error derived from
a sentinel by WithAggregate, WithEvent or WithError still matches that
sentinel, since those combinators never touch the description. -/
theorem eventStoreErr_Is_description_equality :
    ∀ (err : EventStoreErr) (other : GoError),
      (err.Is other = true ↔ ∃ e : EventStoreErr, other = .es e ∧ e.S = err.S)
        ∧ err.Is .nil = false
        ∧ (∀ msg, err.Is (.foreign msg) = false)
        ∧ (∀ ag, (err.withAggregate ag).Is (.es err) = true)
        ∧ (∀ ev, (err.withEvent ev).Is (.es err) = true)
        ∧ (∀ cause, (err.withError cause).Is (.es err) = true) := by
  intro err other
  refine ⟨?_, rfl, fun msg => rfl, fun ag => ?_, fun ev => ?_, fun cause => ?_⟩
  · cases other with
    | nil => simp [EventStoreErr.Is]
    | es e => simp [EventStoreErr.Is]
    | foreign msg => simp [EventStoreErr.Is]
  · simp [EventStoreErr.Is, EventStoreErr.withAggregate]
  · cases h : err.K <;>
      simp [EventStoreErr.Is, EventStoreErr.withEvent,
        EventStoreErr.withAggregate, h]
  · simp [EventStoreErr.Is, EventStoreErr.withError]

/-- C10: WithEvent sets the event field to the given event and frames
everything else — the description and cause are untouched, and the
aggregate is set to the event's aggregate exactly when it was previously
unset, an already-attached aggregate being left unchanged. -/
theorem withEvent_frame :
    ∀ (err : EventStoreErr) (ev : Event),
      (err.withEvent ev).E = some ev
        ∧ (err.withEvent ev).S = err.S
        ∧ (err.withEvent ev).C = err.C
        ∧ (err.withEvent ev).K =
            (match err.K with
             | none => ev.aggregate
             | some a => some a) := by
  intro err ev
  cases h : err.K <;>
    simp [EventStoreErr.withEvent, EventStoreErr.withAggregate, h]

end FissionWorkflows
